import Mathlib

/-!
Verification development for the RSSHub aggregator core.

The Go sources are shallowly embedded as pure Lean functions over explicit
state values:
* the domain model (`internal/core/domain/models.go`) becomes plain structures,
  with `time.Time` values and `time.Duration` (int64 nanoseconds) both modelled
  as `Int` and UUIDs as opaque `Nat` tokens;
* the PostgreSQL-backed repository (`internal/adapter/storage/migrations.go`)
  becomes functions over an in-memory `Db` state — each function mirrors the
  effect of the SQL statement it issues (environmental I/O failures of the
  driver are outside the model);
* the aggregator (`internal/core/service/aggregator.go`, and the DB-polling
  variant of the same file shipped alongside it) becomes functions over an
  `AggState` record; goroutine launches are recorded as `Action` values,
  channel semantics as an explicit bounded `Queue`, context cancellation as a
  flag, and a `time.NewTicker` panic as an `Option` failure;
* external collaborators (the HTTP fetcher, `time.ParseDuration`,
  `strconv.Atoi`, `uuid.New`) are parameters of the functions that consume
  them.
-/

namespace RSSHub

/-! ## Domain model (internal/core/domain/models.go) -/

/-- UUIDs are opaque identity tokens. -/
abbrev UUID := Nat

/-- `time.Time` instants and `time.Duration` values (int64 nanoseconds). -/
abbrev Time := Int

/-- Feed row: id, created_at, updated_at, unique name, url. -/
structure Feed where
  id : UUID
  createdAt : Time
  updatedAt : Time
  name : String
  url : String
deriving DecidableEq, Repr

/-- Article row: id, timestamps, title, unique link, published_at, description, feed_id. -/
structure Article where
  id : UUID
  createdAt : Time
  updatedAt : Time
  title : String
  link : String
  publishedAt : Time
  description : String
  feedId : UUID
deriving DecidableEq, Repr

/-- One item of a fetched-and-parsed feed (domain.ParsedRSSItem). -/
structure ParsedRSSItem where
  title : String
  link : String
  description : String
  publishedAt : Time
deriving DecidableEq, Repr

/-- A fetched-and-parsed feed (domain.ParsedRSSFeed). -/
structure ParsedRSSFeed where
  title : String
  link : String
  description : String
  items : List ParsedRSSItem
deriving DecidableEq, Repr

/-! ## Repository state (internal/adapter/storage/migrations.go)

The feeds and articles tables as in-memory lists of rows. -/

structure Db where
  feeds : List Feed
  articles : List Article
deriving DecidableEq, Repr

/-- `ORDER BY updated_at ASC`: the comparison used by GetOldestFeeds. -/
def feedLe (f g : Feed) : Prop := f.updatedAt ≤ g.updatedAt

instance : DecidableRel feedLe := fun f g =>
  inferInstanceAs (Decidable (f.updatedAt ≤ g.updatedAt))

instance : IsTotal Feed feedLe := ⟨fun f g => Int.le_total f.updatedAt g.updatedAt⟩

instance : IsTrans Feed feedLe := ⟨fun _ _ _ h h2 => le_trans h h2⟩

/-- GetOldestFeeds(limit): `SELECT ... FROM feeds ORDER BY updated_at ASC LIMIT $1`. -/
def Db.getOldestFeeds (db : Db) (limit : Nat) : List Feed :=
  (List.insertionSort feedLe db.feeds).take limit

/-- ArticleExists(link): `SELECT EXISTS(SELECT 1 FROM articles WHERE link = $1)`. -/
def Db.articleExists (db : Db) (link : String) : Bool :=
  db.articles.any (fun a => a.link == link)

/-- The defaulting CreateArticle performs before the INSERT: a missing id is
replaced by a fresh UUID (from the external UUID source) and zero timestamps
by time.Now(). -/
def fillArticle (now : Time) (freshId : UUID) (a : Article) : Article :=
  let a := if a.id == 0 then { a with id := freshId } else a
  let a := if a.createdAt == 0 then { a with createdAt := now } else a
  if a.updatedAt == 0 then { a with updatedAt := now } else a

/-- CreateArticle(article): fills missing fields, then
`INSERT ... ON CONFLICT (link) DO NOTHING` — a row whose link is already
present inserts nothing and reports no error. -/
def Db.createArticle (db : Db) (now : Time) (freshId : UUID) (article : Article) : Db :=
  let article := fillArticle now freshId article
  if db.articleExists article.link then db
  else { db with articles := db.articles ++ [article] }

/-- UpdateFeedTimestamp(feedID): `UPDATE feeds SET updated_at = $1 WHERE id = $2`
with `$1 = time.Now()`. -/
def Db.updateFeedTimestamp (db : Db) (feedID : UUID) (now : Time) : Db :=
  { db with feeds := db.feeds.map (fun f => if f.id == feedID then { f with updatedAt := now } else f) }

/-- Observation helper: the updated_at column of the feed with the given id. -/
def Db.feedUpdatedAt (db : Db) (feedID : UUID) : Option Time :=
  (db.feeds.find? (fun f => f.id == feedID)).map Feed.updatedAt

/-- Modelled from the spec: the settings key-value store consumed through the
`GetAggregatorSetting`/`SetAggregatorSetting` operations declared in
internal/core/port/rss.go — their storage implementation is not among the
sources. Per the data model, a Setting is a unique key with a string value. -/
abbrev Settings := List (String × String)

/-- Modelled from the spec: read the value stored under a key; absent keys
(and hence an unreadable setting) yield no value. -/
def getAggregatorSetting (st : Settings) (key : String) : Option String :=
  st.lookup key

/-- Modelled from the spec: store a value under a unique key. The new binding
shadows any earlier one, and `getAggregatorSetting` reads the most recent
binding, so the pair behaves as a key-value map update. -/
def setAggregatorSetting (st : Settings) (key value : String) : Settings :=
  (key, value) :: st

/-! ## Aggregator state (internal/core/service/aggregator.go)

The mutable fields of the Aggregator struct. The lifecycle context becomes a
cancellation flag, the job channel a bounded queue (with its closed bit), the
ticker an optional period plus an active bit, and the WaitGroup-tracked
workers the list of their spawn ids. -/

/-- The buffered jobs channel: capacity, buffered feeds, closed bit. -/
structure Queue where
  cap : Nat
  buf : List Feed
  closed : Bool
deriving DecidableEq, Repr

/-- Goroutines launched by Start, in launch order. -/
inductive Action where
  | aggregationLoop
  | settingsMonitor
  | fetchFeeds
deriving DecidableEq, Repr

structure AggState where
  interval : Time
  workersCount : Nat
  ctxCancelled : Bool
  ticker : Option Time
  tickerActive : Bool
  jobs : Option Queue
  workers : List Nat
  isRunning : Bool
deriving DecidableEq, Repr

/-- time.NewTicker(d): panics on a non-positive duration; `none` models the
panic, `some d` the created ticker with period d. -/
def newTicker (d : Time) : Option Time := if d ≤ 0 then none else some d

namespace Agg

/-- New(db, parser, defaultInterval, defaultWorkers). -/
def new (defaultInterval : Time) (defaultWorkers : Nat) : AggState :=
  { interval := defaultInterval
    workersCount := defaultWorkers
    ctxCancelled := false
    ticker := none
    tickerActive := false
    jobs := none
    workers := []
    isRunning := false }

/-- Start(ctx): fails if already running; otherwise creates a fresh lifecycle
context, a jobs channel of capacity workersCount*2, spawns workers 1..n,
creates the ticker from the stored interval (time.NewTicker panics for a
non-positive one — the `none` result), marks running, and launches the
aggregation loop plus one immediate fetchFeeds. -/
def start (a : AggState) : Option (Except String (AggState × List Action)) :=
  if a.isRunning then some (.error "background process is already running")
  else
    let a := { a with
      ctxCancelled := false
      jobs := some { cap := a.workersCount * 2, buf := [], closed := false }
      workers := List.range' 1 a.workersCount }
    match newTicker a.interval with
    | none => none
    | some t =>
      some (.ok ({ a with ticker := some t, tickerActive := true, isRunning := true },
                 [Action.aggregationLoop, Action.fetchFeeds]))

/-- Stop(): fails if not running; otherwise stops the ticker, cancels the
lifecycle context, closes the jobs channel, waits for every worker to exit
(workerWg.Wait — the returned state has no live workers), and marks stopped. -/
def stop (a : AggState) : Except String AggState :=
  if !a.isRunning then .error "background process is not running"
  else
    let a := if a.ticker.isSome then { a with tickerActive := false } else a
    let a := { a with ctxCancelled := true }
    let a := match a.jobs with
      | some q => { a with jobs := some { q with closed := true } }
      | none => a
    .ok { a with workers := [], isRunning := false }

/-- SetInterval(newInterval): stores the new interval unconditionally (there is
no validation of the value and no error return), then, when running with a
live ticker, stops it and calls time.NewTicker(newInterval) — whose panic for
a non-positive value is the `none` result. -/
def setInterval (a : AggState) (newInterval : Time) : Option AggState :=
  let a := { a with interval := newInterval }
  if a.isRunning then
    match a.ticker with
    | some _ =>
      match newTicker newInterval with
      | none => none
      | some t => some { a with ticker := some t, tickerActive := true }
    | none => some a
  else some a

/-- Resize(newWorkersCount): rejects a non-positive count; when stopped, only
records the new count; when running, spawns additional workers on growth and,
on shrink, removes nothing — the comment in the source says the surplus
workers finish naturally when the jobs run out or at the next shutdown. -/
def resize (a : AggState) (n : Int) : Except String AggState :=
  if n ≤ 0 then .error "workers count must be positive"
  else if !a.isRunning then .ok { a with workersCount := n.toNat }
  else
    let a :=
      if a.workersCount < n.toNat then
        { a with workers := a.workers ++ List.range' (a.workersCount + 1) (n.toNat - a.workersCount) }
      else a
    .ok { a with workersCount := n.toNat }

/-- One non-blocking send of fetchFeeds: `select { case jobs <- feed: ...;
default: skip }` on a buffered channel succeeds exactly when the buffer is not
full. -/
def enqueueNonBlocking (q : Queue) (f : Feed) : Queue :=
  if q.buf.length < q.cap then { q with buf := q.buf ++ [f] } else q

/-- fetchFeeds(): reads the current worker count, asks the repository for that
many oldest-updated feeds, and enqueues each without blocking, skipping feeds
when the channel is full. A nil jobs channel is never ready, so every send
falls through to the default (skip) branch. The model covers executions whose
lifecycle context is not cancelled (the select's Done branch can abort the
dispatch loop early). -/
def fetchFeeds (db : Db) (a : AggState) : AggState :=
  if a.ctxCancelled then a
  else
    let feeds := db.getOldestFeeds a.workersCount
    if feeds.isEmpty then a
    else
      match a.jobs with
      | none => a
      | some q => { a with jobs := some (feeds.foldl enqueueNonBlocking q) }

end Agg

/-- What one iteration of the worker loop can do. -/
inductive WorkerOutcome where
  | run (f : Feed)
  | exitClosed
  | exitCancelled
deriving DecidableEq, Repr

/-- The set of outcomes enabled for the select in worker(id) at one loop
iteration (an empty set means the worker blocks). A receive on the jobs
channel yields a buffered feed while one exists, and reports the channel
closed only once the buffer has drained. Neither the worker id nor the
configured workersCount is consulted: the loop exits only on a closed channel
or a cancelled context. -/
def workerSelect (q : Queue) (ctxCancelled : Bool) : List WorkerOutcome :=
  (match q.buf with
   | f :: _ => [WorkerOutcome.run f]
   | [] => if q.closed then [WorkerOutcome.exitClosed] else []) ++
  (if ctxCancelled then [WorkerOutcome.exitCancelled] else [])

/-- One iteration of the item loop inside processFeed: an item whose link
already exists is skipped; otherwise a new article is built with a fresh UUID
(the n-th draw from the external UUID source) and inserted. A per-item error
never aborts the loop. -/
def processItemStep (genId : Nat → UUID) (now : Time) (feedId : UUID)
    (acc : Db × Nat) (item : ParsedRSSItem) : Db × Nat :=
  let db := acc.1
  let n := acc.2
  if db.articleExists item.link then (db, n)
  else
    let article : Article :=
      { id := genId n, createdAt := 0, updatedAt := 0, title := item.title,
        link := item.link, publishedAt := item.publishedAt,
        description := item.description, feedId := feedId }
    (db.createArticle now (genId n) article, n + 1)

/-- processFeed(workerID, feed): fetches and parses the feed (the fetcher is an
external collaborator, so its outcome is the `fetched` argument); on a fetch
error the function returns at once — before the timestamp update. On success
it walks the items in order through `processItemStep` and finally calls
UpdateFeedTimestamp(feed.ID). -/
def processFeed (genId : Nat → UUID) (now : Time) (db : Db) (feed : Feed)
    (fetched : Except String ParsedRSSFeed) : Db :=
  match fetched with
  | .error _ => db
  | .ok parsed =>
    let folded := parsed.items.foldl (processItemStep genId now feed.id) (db, 0)
    folded.1.updateFeedTimestamp feed.id now

/-! ## DB-polling variant of the aggregator

The sources also ship a second version of aggregator.go (the database-polling
design): SetInterval and Resize there first check the running flag / skip
no-op changes. The settings manager below drives these versions through the
port.Aggregator interface. -/

namespace AggDB

/-- SetInterval(newInterval), DB-polling variant: errors when the aggregator is
not running, no-ops when the interval is unchanged, otherwise stores it and
recreates the ticker (time.NewTicker panic = `none`). The value itself is
never validated. -/
def setInterval (a : AggState) (newInterval : Time) : Option (Except String AggState) :=
  if !a.isRunning then some (.error "aggregator is not running")
  else if a.interval == newInterval then some (.ok a)
  else
    let a := { a with interval := newInterval }
    match a.ticker with
    | some _ =>
      match newTicker newInterval with
      | none => none
      | some t => some (.ok { a with ticker := some t, tickerActive := true })
    | none => some (.ok a)

/-- Resize(newWorkersCount), DB-polling variant: rejects a non-positive count,
no-ops when the count is unchanged, records the count when stopped, and when
running spawns extra workers on growth while removing none on shrink. -/
def resize (a : AggState) (n : Int) : Except String AggState :=
  if n ≤ 0 then .error "workers count must be positive"
  else if a.workersCount == n.toNat then .ok a
  else if !a.isRunning then .ok { a with workersCount := n.toNat }
  else
    let a :=
      if a.workersCount < n.toNat then
        { a with workers := a.workers ++ List.range' (a.workersCount + 1) (n.toNat - a.workersCount) }
      else a
    .ok { a with workersCount := n.toNat }

end AggDB

/-! ## Settings manager (internal/core/service/manager.go) -/

namespace Manager

/-- CheckAndApplyChanges(aggregator): returns with no effect unless the
settings_changed flag reads "true"; then resets the flag to "false" FIRST and
only afterwards reads the interval and workers values (from the post-reset
store), applying a parsed value only when positive. Apply errors are logged
and swallowed; the function itself always returns a nil error. The Go parsers
time.ParseDuration / strconv.Atoi are external collaborators passed in as
`parseDuration` / `atoi`. The `none` result is a panic escaping from the
applied operations. -/
def checkAndApplyChanges (parseDuration : String → Option Time) (atoi : String → Option Int)
    (st : Settings) (a : AggState) : Option (Settings × AggState) :=
  match getAggregatorSetting st "settings_changed" with
  | none => some (st, a)
  | some changed =>
    if changed ≠ "true" then some (st, a)
    else
      let st := setAggregatorSetting st "settings_changed" "false"
      let newInterval : Time :=
        match getAggregatorSetting st "interval" with
        | some s =>
          match parseDuration s with
          | some d => d
          | none => 0
        | none => 0
      let newWorkers : Int :=
        match getAggregatorSetting st "workers" with
        | some s =>
          match atoi s with
          | some w => if 0 < w then w else 0
          | none => 0
        | none => 0
      let afterInterval : Option AggState :=
        if 0 < newInterval then
          match AggDB.setInterval a newInterval with
          | none => none
          | some (.error _) => some a
          | some (.ok a1) => some a1
        else some a
      match afterInterval with
      | none => none
      | some a1 =>
        let a2 : AggState :=
          if 0 < newWorkers then
            match AggDB.resize a1 newWorkers with
            | .error _ => a1
            | .ok a3 => a3
          else a1
        some (st, a2)

end Manager

/-! ## CLI (internal/cli/commands.go) -/

/-- time.Second in nanoseconds. -/
def second : Time := 1000000000

namespace CLI

/-- handleSetInterval(args): requires a third argument, parses it with
time.ParseDuration (external collaborator `parseDuration`), rejects a duration
below one second before touching the aggregator, requires the aggregator to be
running, and only then calls SetInterval. The `none` result is the
time.NewTicker panic escaping from SetInterval. -/
def handleSetInterval (parseDuration : String → Option Time)
    (a : AggState) (args : List String) : Option (Except String AggState) :=
  if args.length < 3 then
    some (.error "interval duration is required (e.g., 2m, 30s, 1h)")
  else
    let durationStr := args.getD 2 ""
    match parseDuration durationStr with
    | none => some (.error ("invalid duration format: " ++ durationStr))
    | some duration =>
      if duration < second then some (.error "interval must be at least 1 second")
      else if !a.isRunning then
        some (.error "background process is not running. Start it first with rsshub fetch")
      else (Agg.setInterval a duration).map .ok

end CLI

/-! ## Concrete sample values -/

def feedA : Feed :=
  { id := 1, createdAt := 0, updatedAt := 100, name := "alpha", url := "http-alpha" }

def feedB : Feed :=
  { id := 2, createdAt := 0, updatedAt := 50, name := "beta", url := "http-beta" }

def dbA : Db := { feeds := [feedA], articles := [] }

def dbAB : Db := { feeds := [feedA, feedB], articles := [] }

def queue3 : Queue := { cap := 6, buf := [feedA], closed := false }

def agg3run : AggState :=
  { interval := 3 * second, workersCount := 3, ctxCancelled := false,
    ticker := some (3 * second), tickerActive := true,
    jobs := some queue3, workers := [1, 2, 3], isRunning := true }

/-! ## Helper lemmas -/

lemma createArticle_feeds (db : Db) (now : Time) (fid : UUID) (article : Article) :
    (db.createArticle now fid article).feeds = db.feeds := by
  simp only [Db.createArticle]
  split <;> rfl

lemma processItemStep_fst_feeds (genId : Nat → UUID) (now : Time) (fid : UUID)
    (acc : Db × Nat) (item : ParsedRSSItem) :
    ((processItemStep genId now fid acc item).1).feeds = acc.1.feeds := by
  simp only [processItemStep]
  split
  · rfl
  · exact createArticle_feeds _ _ _ _

lemma processItemStep_feeds (genId : Nat → UUID) (now : Time) (fid : UUID) :
    ∀ (items : List ParsedRSSItem) (acc : Db × Nat),
      ((items.foldl (processItemStep genId now fid) acc).1).feeds = acc.1.feeds := by
  intro items
  induction items with
  | nil => intro acc; rfl
  | cons item rest ih =>
    intro acc
    rw [List.foldl_cons, ih, processItemStep_fst_feeds]

lemma find?_map_update (l : List Feed) (fid : UUID) (now : Time) :
    List.find? (fun f => f.id == fid)
      (l.map (fun f => if f.id == fid then { f with updatedAt := now } else f)) =
    (List.find? (fun f => f.id == fid) l).map (fun f => { f with updatedAt := now }) := by
  induction l with
  | nil => rfl
  | cons f l ih =>
    cases h : f.id == fid with
    | true =>
      have h2 : (({ f with updatedAt := now } : Feed).id == fid) = true := h
      simp only [List.map_cons, List.find?_cons]
      simp [h, h2]
    | false =>
      have h2 : ¬ ((f.id == fid) = true) := by simp [h]
      have hg : List.map (fun f => if (f.id == fid) = true then
            ({ f with updatedAt := now } : Feed) else f) (f :: l) =
          f :: List.map (fun f => if (f.id == fid) = true then
            ({ f with updatedAt := now } : Feed) else f) l := by
        rw [List.map_cons, if_neg h2]
      rw [hg, List.find?_cons, List.find?_cons, h]
      exact ih

lemma feedUpdatedAt_update (db : Db) (fid : UUID) (now : Time) :
    (db.updateFeedTimestamp fid now).feedUpdatedAt fid =
      (db.feedUpdatedAt fid).map (fun _ => now) := by
  simp only [Db.updateFeedTimestamp, Db.feedUpdatedAt]
  rw [find?_map_update]
  cases List.find? (fun f => f.id == fid) db.feeds <;> rfl

lemma feedUpdatedAt_congr (d1 d2 : Db) (fid : UUID) (h : d1.feeds = d2.feeds) :
    d1.feedUpdatedAt fid = d2.feedUpdatedAt fid := by
  simp only [Db.feedUpdatedAt, h]

/-! ## C1: feed timestamp after a worker finishes -/

/-- C1 counterexample: a worker that fails to fetch-and-parse its feed returns
at once, leaving the repository untouched — updatedAt stays 100 even though
the claimed UpdateFeedTimestamp invocation would have advanced it to 200. -/
theorem processFeed_fetch_error_cex :
    processFeed (fun _ => 0) 200 dbA feedA (.error "connection refused") = dbA ∧
    dbA.feedUpdatedAt 1 = some 100 ∧
    (dbA.updateFeedTimestamp 1 200).feedUpdatedAt 1 = some 200 := by
  exact ⟨rfl, rfl, rfl⟩

/-- C1 (amended): processFeed advances the feed's updatedAt exactly when the
fetch-and-parse succeeds (regardless of per-item outcomes); on a fetch error
it returns before the timestamp update, leaving the repository unchanged. -/
theorem processFeed_timestamp_spec (genId : Nat → UUID) (now : Time) (db : Db)
    (feed : Feed) (e : String) (parsed : ParsedRSSFeed) :
    processFeed genId now db feed (.error e) = db ∧
    ((db.feedUpdatedAt feed.id).isSome →
      (processFeed genId now db feed (.ok parsed)).feedUpdatedAt feed.id = some now) := by
  constructor
  · rfl
  · intro h
    show (((parsed.items.foldl (processItemStep genId now feed.id) (db, 0)).1).updateFeedTimestamp
        feed.id now).feedUpdatedAt feed.id = some now
    rw [feedUpdatedAt_update,
        feedUpdatedAt_congr _ db feed.id (processItemStep_feeds genId now feed.id parsed.items (db, 0))]
    obtain ⟨t, ht⟩ := Option.isSome_iff_exists.mp h
    rw [ht]
    rfl

/-- C1 witness: the amended statement evaluated at a concrete feed, store and
parsed payload. -/
theorem processFeed_timestamp_spec_witness :
    processFeed (fun _ => 7) 200 dbA feedA (.error "boom") = dbA ∧
    (processFeed (fun _ => 7) 200 dbA feedA
      (.ok { title := "t", link := "l", description := "d",
             items := [{ title := "i", link := "il", description := "id",
                         publishedAt := 5 }] })).feedUpdatedAt 1 = some 200 := by
  have h := processFeed_timestamp_spec (fun _ => 7) 200 dbA feedA "boom"
    { title := "t", link := "l", description := "d",
      items := [{ title := "i", link := "il", description := "id", publishedAt := 5 }] }
  exact ⟨h.1, h.2 (by decide)⟩

/-! ## C6: article insertion is idempotent on link -/

lemma fillArticle_link (now : Time) (freshId : UUID) (a : Article) :
    (fillArticle now freshId a).link = a.link := by
  simp only [fillArticle]
  split <;> split <;> split <;> rfl

/-- C6: inserting an article whose link is already persisted is a no-op of the
store (no error is modelled because the SQL `ON CONFLICT (link) DO NOTHING`
reports none), and insertion preserves the no-two-articles-share-a-link
invariant. -/
theorem createArticle_idempotent_on_link (db : Db) (now : Time) (fid : UUID) (a : Article) :
    (db.articleExists a.link = true → db.createArticle now fid a = db) ∧
    ((db.articles.map Article.link).Nodup →
      ((db.createArticle now fid a).articles.map Article.link).Nodup) := by
  constructor
  · intro h
    simp only [Db.createArticle, fillArticle_link, h, if_true]
  · intro hnd
    simp only [Db.createArticle, fillArticle_link]
    by_cases h : db.articleExists a.link = true
    · rw [if_pos h]; exact hnd
    · rw [if_neg h]
      simp only [List.map_append, List.map_cons, List.map_nil]
      rw [List.nodup_append]
      refine ⟨hnd, List.nodup_singleton _, ?_⟩
      intro x hx hxs
      simp only [List.mem_singleton] at hxs
      rw [fillArticle_link] at hxs
      have hb : db.articleExists a.link = false := by
        cases hv : db.articleExists a.link
        · rfl
        · exact absurd hv h
      simp only [Db.articleExists, List.any_eq_false] at hb
      simp only [List.mem_map] at hx
      obtain ⟨art, hart, hlink⟩ := hx
      have hne := hb art hart
      have hbeq : (art.link == a.link) = true := beq_iff_eq.mpr (hlink.trans hxs)
      simp [hbeq] at hne

/-- A persisted article used by the C6 witness. -/
def articleDup : Article :=
  { id := 9, createdAt := 1, updatedAt := 1, title := "t", link := "dup",
    publishedAt := 0, description := "old", feedId := 1 }

/-- An incoming article sharing the persisted link. -/
def articleDup2 : Article :=
  { id := 11, createdAt := 0, updatedAt := 0, title := "t2", link := "dup",
    publishedAt := 0, description := "new", feedId := 1 }

/-- The store already holding `articleDup`. -/
def dbDup : Db := { feeds := [], articles := [articleDup] }

/-- C6 witness: the theorem at a concrete store that already holds the link. -/
theorem createArticle_idempotent_on_link_witness :
    dbDup.createArticle 5 10 articleDup2 = dbDup ∧
    ((dbDup.createArticle 5 10 articleDup2).articles.map Article.link).Nodup := by
  have h := createArticle_idempotent_on_link dbDup 5 10 articleDup2
  exact ⟨h.1 (by decide), h.2 (by decide)⟩

/-! ## C9: the core SetInterval validates nothing -/

/-- C9: Aggregator.SetInterval performs no validation of the duration: every
value — including a non-positive one — is stored (the function has no error
channel for the value at all); when the aggregator is running with a live
ticker it recreates the ticker with the new duration, so a non-positive
duration reaches time.NewTicker and the panic (`none`) is reachable. -/
theorem setInterval_no_validation (a : AggState) (d : Time) :
    (a.isRunning = false → Agg.setInterval a d = some { a with interval := d }) ∧
    (a.isRunning = true → a.ticker = none → Agg.setInterval a d = some { a with interval := d }) ∧
    (∀ t, a.isRunning = true → a.ticker = some t → 0 < d →
      Agg.setInterval a d =
        some { a with interval := d, ticker := some d, tickerActive := true }) ∧
    (∀ t, a.isRunning = true → a.ticker = some t → d ≤ 0 → Agg.setInterval a d = none) := by
  refine ⟨?_, ?_, ?_, ?_⟩
  · intro h
    simp [Agg.setInterval, h]
  · intro h ht
    simp [Agg.setInterval, h, ht]
  · intro t h ht hd
    have hc : ¬ (d ≤ 0) := not_le.mpr hd
    have hnt : newTicker d = some d := by
      unfold newTicker
      rw [if_neg hc]
    simp [Agg.setInterval, h, ht, hnt]
  · intro t h ht hd
    have hnt : newTicker d = none := by simp [newTicker, hd]
    simp [Agg.setInterval, h, ht, hnt]

/-- C9 witness: a stopped aggregator stores -5ns without complaint, and a
running one with a live ticker panics on -1ns. -/
theorem setInterval_no_validation_witness :
    Agg.setInterval (Agg.new (3 * second) 3) (-5) =
      some { Agg.new (3 * second) 3 with interval := -5 } ∧
    Agg.setInterval agg3run (-1) = none := by
  constructor
  · exact (setInterval_no_validation (Agg.new (3 * second) 3) (-5)).1 rfl
  · exact (setInterval_no_validation agg3run (-1)).2.2.2 (3 * second) rfl rfl (by decide)

/-! ## C10: Resize on a stopped aggregator -/

/-- Stopped-state/startup behaviour of Start, shared by several claims:
when not running and the stored interval is positive, Start succeeds,
creates the jobs channel with capacity workersCount*2, spawns workers
1..workersCount, starts the ticker, marks running, and launches the
aggregation loop plus one immediate fetch cycle. -/
lemma start_ok (a : AggState) (hrun : a.isRunning = false) (hpos : 0 < a.interval) :
    Agg.start a = some (.ok
      ({ a with ctxCancelled := false,
                jobs := some { cap := a.workersCount * 2, buf := [], closed := false },
                workers := List.range' 1 a.workersCount,
                ticker := some a.interval, tickerActive := true, isRunning := true },
       [Action.aggregationLoop, Action.fetchFeeds])) := by
  have hc : ¬ (a.interval ≤ 0) := not_le.mpr hpos
  have hnt : newTicker a.interval = some a.interval := by
    unfold newTicker
    rw [if_neg hc]
  simp [Agg.start, hrun, hnt]

/-- C10: Resize(n) with n > 0 on a stopped aggregator returns nil after
updating only the stored worker-count field — the queue, interval, ticker,
workers and running flag are untouched — and the new count takes effect at
the next Start, which sizes the queue and worker set from it. -/
theorem resize_stopped_frame (a : AggState) (n : Int)
    (hpos : 0 < n) (hstop : a.isRunning = false) :
    Agg.resize a n = .ok { a with workersCount := n.toNat } ∧
    (0 < a.interval →
      Agg.start { a with workersCount := n.toNat } = some (.ok
        ({ a with workersCount := n.toNat, ctxCancelled := false,
                  jobs := some { cap := n.toNat * 2, buf := [], closed := false },
                  workers := List.range' 1 n.toNat,
                  ticker := some a.interval, tickerActive := true, isRunning := true },
         [Action.aggregationLoop, Action.fetchFeeds]))) := by
  constructor
  · have hn : ¬ (n ≤ 0) := by omega
    simp [Agg.resize, hn, hstop]
  · intro hint
    exact start_ok { a with workersCount := n.toNat } hstop hint

/-- C10 witness: the theorem at a freshly constructed stopped aggregator. -/
theorem resize_stopped_frame_witness :
    Agg.resize (Agg.new (3 * second) 3) 5 =
      .ok { Agg.new (3 * second) 3 with workersCount := 5 } ∧
    Agg.start { Agg.new (3 * second) 3 with workersCount := 5 } = some (.ok
      ({ Agg.new (3 * second) 3 with
          workersCount := 5,
          ctxCancelled := false,
          jobs := some { cap := 10, buf := [], closed := false },
          workers := [1, 2, 3, 4, 5],
          ticker := some (3 * second),
          tickerActive := true,
          isRunning := true },
       [Action.aggregationLoop, Action.fetchFeeds])) := by
  have h := resize_stopped_frame (Agg.new (3 * second) 3) 5 (by decide) rfl
  exact ⟨h.1, h.2 (by decide)⟩

/-! ## C3: Start behaviour -/

/-- C3: Start on a running aggregator fails with the AlreadyRunning error
before mutating anything (the error return precedes every assignment); Start
on a stopped aggregator (with its positive interval) launches exactly the
configured number of workers, starts the interval timer, marks running, and
launches the aggregation loop together with one immediate fetch cycle. -/
theorem start_behavior (a : AggState) :
    (a.isRunning = true → Agg.start a = some (.error "background process is already running")) ∧
    (a.isRunning = false → 0 < a.interval →
      Agg.start a = some (.ok
        ({ a with ctxCancelled := false,
                  jobs := some { cap := a.workersCount * 2, buf := [], closed := false },
                  workers := List.range' 1 a.workersCount,
                  ticker := some a.interval, tickerActive := true, isRunning := true },
         [Action.aggregationLoop, Action.fetchFeeds])) ∧
      (List.range' 1 a.workersCount).length = a.workersCount) := by
  constructor
  · intro h
    simp [Agg.start, h]
  · intro h hpos
    exact ⟨start_ok a h hpos, by simp⟩

/-- C3 witness: the already-running branch at a concrete running state, and
the success branch at a fresh aggregator with 3 workers and a 3s interval. -/
theorem start_behavior_witness :
    Agg.start agg3run = some (.error "background process is already running") ∧
    Agg.start (Agg.new (3 * second) 3) = some (.ok
      ({ interval := 3 * second, workersCount := 3, ctxCancelled := false,
         ticker := some (3 * second), tickerActive := true,
         jobs := some { cap := 6, buf := [], closed := false },
         workers := [1, 2, 3], isRunning := true },
       [Action.aggregationLoop, Action.fetchFeeds])) := by
  constructor
  · exact (start_behavior agg3run).1 rfl
  · have h := ((start_behavior (Agg.new (3 * second) 3)).2 rfl (by decide)).1
    rw [h]
    rfl

/-! ## C4: Stop behaviour -/

/-- C4: Stop on a non-running aggregator fails with the NotRunning error; Stop
on a running one stops the ticker, cancels the lifecycle context, closes the
jobs channel, returns only once the live worker set has drained
(workerWg.Wait), and marks the aggregator stopped, leaving the configuration
fields untouched. -/
theorem stop_behavior (a : AggState) :
    (a.isRunning = false → Agg.stop a = .error "background process is not running") ∧
    (a.isRunning = true → ∃ s, Agg.stop a = .ok s ∧
      s.isRunning = false ∧ s.workers = [] ∧ s.ctxCancelled = true ∧
      (a.ticker.isSome = true → s.tickerActive = false) ∧
      (∀ q, a.jobs = some q → s.jobs = some { q with closed := true }) ∧
      s.interval = a.interval ∧ s.workersCount = a.workersCount) := by
  constructor
  · intro h
    simp [Agg.stop, h]
  · intro h
    cases hT : a.ticker with
    | none =>
      cases hJ : a.jobs with
      | none =>
        refine ⟨{ a with
            ctxCancelled := true,
            workers := [],
            isRunning := false },
          by simp [Agg.stop, h, hT, hJ], rfl, rfl, rfl, ?_, ?_, rfl, rfl⟩
        · intro ht; simp at ht
        · intro q hq; simp at hq
      | some q0 =>
        refine ⟨{ a with
            ctxCancelled := true,
            jobs := some { q0 with closed := true },
            workers := [],
            isRunning := false },
          by simp [Agg.stop, h, hT, hJ], rfl, rfl, rfl, ?_, ?_, rfl, rfl⟩
        · intro ht; simp at ht
        · intro q hq
          cases hq
          rfl
    | some t0 =>
      cases hJ : a.jobs with
      | none =>
        refine ⟨{ a with
            tickerActive := false,
            ctxCancelled := true,
            workers := [],
            isRunning := false },
          by simp [Agg.stop, h, hT, hJ], rfl, rfl, rfl, fun _ => rfl, ?_, rfl, rfl⟩
        intro q hq; simp at hq
      | some q0 =>
        refine ⟨{ a with
            tickerActive := false,
            ctxCancelled := true,
            jobs := some { q0 with closed := true },
            workers := [],
            isRunning := false },
          by simp [Agg.stop, h, hT, hJ], rfl, rfl, rfl, fun _ => rfl, ?_, rfl, rfl⟩
        intro q hq
        cases hq
        rfl

/-- C4 witness: the NotRunning branch at a fresh aggregator and the graceful
shutdown branch at a concrete running state. -/
theorem stop_behavior_witness :
    Agg.stop (Agg.new (3 * second) 3) = .error "background process is not running" ∧
    ∃ s, Agg.stop agg3run = .ok s ∧ s.isRunning = false ∧ s.workers = [] ∧
      s.ctxCancelled = true ∧ s.jobs = some { queue3 with closed := true } := by
  constructor
  · exact (stop_behavior (Agg.new (3 * second) 3)).1 rfl
  · obtain ⟨s, h1, h2, h3, h4, _, h6, _, _⟩ := (stop_behavior agg3run).2 rfl
    exact ⟨s, h1, h2, h3, h4, h6 queue3 rfl⟩

/-! ## C2: shrinking the worker pool -/

/-- Iterated fetch cycles (scheduling ticks) against a fixed repository. -/
def applyCycles (db : Db) : Nat → AggState → AggState
  | 0, a => a
  | k + 1, a => applyCycles db k (Agg.fetchFeeds db a)

lemma fetchFeeds_workers (db : Db) (a : AggState) :
    (Agg.fetchFeeds db a).workers = a.workers := by
  simp only [Agg.fetchFeeds]
  split
  · rfl
  · split
    · rfl
    · split <;> rfl

lemma applyCycles_workers (db : Db) :
    ∀ (k : Nat) (a : AggState), (applyCycles db k a).workers = a.workers := by
  intro k
  induction k with
  | zero => intro a; rfl
  | succ k ih =>
    intro a
    rw [applyCycles, ih, fetchFeeds_workers]

/-- C2 counterexample: on a running aggregator with three live workers,
Resize(1) leaves all three workers alive (the live count is 3, not 1), five
further scheduling ticks still leave three live workers, and the only enabled
action for a worker facing an open, non-empty queue with an uncancelled
context is to process the next feed — there is no slot-based voluntary exit. -/
theorem resize_shrink_cex :
    Agg.resize agg3run 1 = .ok { agg3run with workersCount := 1 } ∧
    ({ agg3run with workersCount := 1 } : AggState).workers = [1, 2, 3] ∧
    (applyCycles dbA 5 { agg3run with workersCount := 1 }).workers = [1, 2, 3] ∧
    workerSelect queue3 false = [WorkerOutcome.run feedA] := by
  refine ⟨rfl, by decide, ?_, rfl⟩
  rw [applyCycles_workers]
  decide

/-- C2 (amended): Resize(W) with 0 < W ≤ C on a running aggregator with C
configured workers only records W as the configured count; it removes no live
worker, any number of subsequent scheduling ticks leaves the live worker set
unchanged, and a worker whose queue is open and non-empty under an uncancelled
context can only process the next feed — workers exit solely on a closed
channel or a cancelled context (at Stop), never because of their slot. -/
theorem resize_shrink_records_target_only (a : AggState) (n : Int)
    (hrun : a.isRunning = true) (hpos : 0 < n) (hle : n.toNat ≤ a.workersCount) :
    Agg.resize a n = .ok { a with workersCount := n.toNat } ∧
    (∀ db k, (applyCycles db k { a with workersCount := n.toNat }).workers = a.workers) ∧
    (∀ (q : Queue) (f : Feed) (rest : List Feed),
      q.buf = f :: rest → workerSelect q false = [WorkerOutcome.run f]) := by
  refine ⟨?_, ?_, ?_⟩
  · have hn : ¬ (n ≤ 0) := not_le.mpr hpos
    have hgrow : ¬ (a.workersCount < n.toNat) := not_lt.mpr hle
    simp [Agg.resize, hn, hrun, hgrow]
  · intro db k
    rw [applyCycles_workers]
  · intro q f rest hbuf
    simp [workerSelect, hbuf]

/-- C2 witness: the amended statement at the concrete three-worker running
state, shrink target 1, five ticks. -/
theorem resize_shrink_records_target_only_witness :
    Agg.resize agg3run 1 = .ok { agg3run with workersCount := 1 } ∧
    (applyCycles dbA 3 { agg3run with workersCount := 1 }).workers = agg3run.workers ∧
    workerSelect queue3 false = [WorkerOutcome.run feedA] := by
  have h := resize_shrink_records_target_only agg3run 1 rfl (by decide) (by decide)
  exact ⟨h.1, h.2.1 dbA 3, h.2.2 queue3 feedA [] rfl⟩

/-! ## C5: fetch-cycle selection and load shedding -/

lemma foldl_enqueueNonBlocking (feeds : List Feed) :
    ∀ q : Queue, feeds.foldl Agg.enqueueNonBlocking q =
      { q with buf := q.buf ++ feeds.take (q.cap - q.buf.length) } := by
  induction feeds with
  | nil => intro q; simp
  | cons f fs ih =>
    intro q
    rw [List.foldl_cons]
    by_cases h : q.buf.length < q.cap
    · have he : Agg.enqueueNonBlocking q f = { q with buf := q.buf ++ [f] } := by
        simp [Agg.enqueueNonBlocking, h]
      rw [he, ih]
      have hc : q.cap - q.buf.length = (q.cap - (q.buf.length + 1)) + 1 := by omega
      simp [hc, List.take_succ_cons]
    · have he : Agg.enqueueNonBlocking q f = q := by
        simp [Agg.enqueueNonBlocking, h]
      rw [he, ih]
      have hc : q.cap - q.buf.length = 0 := by omega
      simp [hc]

/-- C5: a fetch cycle selects the N oldest-updated feeds — N being the worker
count read at the start of the cycle — as a sorted-by-updatedAt selection
that, together with the feeds left unselected, is a permutation of the feeds
table, every selected feed being at least as stale as every unselected one;
each selected feed is then enqueued without blocking, and exactly those that
fit in the queue's free space are appended — the overflow is dropped for this
cycle and nothing is requeued. -/
theorem fetch_cycle_selects_oldest (db : Db) (a : AggState) (q : Queue)
    (hjobs : a.jobs = some q) (hctx : a.ctxCancelled = false) :
    List.Sorted feedLe (db.getOldestFeeds a.workersCount) ∧
    (db.getOldestFeeds a.workersCount).length = min a.workersCount db.feeds.length ∧
    ((db.getOldestFeeds a.workersCount) ++
      (List.insertionSort feedLe db.feeds).drop a.workersCount).Perm db.feeds ∧
    (∀ f ∈ db.getOldestFeeds a.workersCount,
      ∀ g ∈ (List.insertionSort feedLe db.feeds).drop a.workersCount, feedLe f g) ∧
    ((db.getOldestFeeds a.workersCount).isEmpty = false →
      Agg.fetchFeeds db a = { a with jobs := some { q with
        buf := q.buf ++ (db.getOldestFeeds a.workersCount).take (q.cap - q.buf.length) } }) ∧
    ((db.getOldestFeeds a.workersCount).isEmpty = true → Agg.fetchFeeds db a = a) := by
  have hsorted := List.sorted_insertionSort feedLe db.feeds
  have hsplit : (List.insertionSort feedLe db.feeds).take a.workersCount ++
      (List.insertionSort feedLe db.feeds).drop a.workersCount =
      List.insertionSort feedLe db.feeds := List.take_append_drop _ _
  refine ⟨?_, ?_, ?_, ?_, ?_, ?_⟩
  · exact List.Pairwise.sublist (List.take_sublist _ _) hsorted
  · simp [Db.getOldestFeeds]
  · show ((List.insertionSort feedLe db.feeds).take a.workersCount ++
      (List.insertionSort feedLe db.feeds).drop a.workersCount).Perm db.feeds
    rw [hsplit]
    exact List.perm_insertionSort feedLe db.feeds
  · have hp : List.Pairwise feedLe
        ((List.insertionSort feedLe db.feeds).take a.workersCount ++
         (List.insertionSort feedLe db.feeds).drop a.workersCount) := by
      rw [hsplit]
      exact hsorted
    exact (List.pairwise_append.mp hp).2.2
  · intro hne
    simp only [Agg.fetchFeeds, hctx, Bool.false_eq_true, if_false, hne, hjobs]
    rw [foldl_enqueueNonBlocking]
  · intro hemp
    simp [Agg.fetchFeeds, hctx, hemp]

/-- C5 witness: at a two-feed table with the stalest feed second, the cycle of
a three-worker aggregator selects both feeds in staleness order and appends
them to the queue's free space. -/
theorem fetch_cycle_selects_oldest_witness :
    List.Sorted feedLe (dbAB.getOldestFeeds agg3run.workersCount) ∧
    (dbAB.getOldestFeeds agg3run.workersCount).length =
      min agg3run.workersCount dbAB.feeds.length ∧
    Agg.fetchFeeds dbAB agg3run = { agg3run with jobs := some { queue3 with
      buf := queue3.buf ++
        (dbAB.getOldestFeeds agg3run.workersCount).take
          (queue3.cap - queue3.buf.length) } } := by
  have h := fetch_cycle_selects_oldest dbAB agg3run queue3 rfl rfl
  exact ⟨h.1, h.2.1, h.2.2.2.2.1 (by decide)⟩

/-! ## C7: the DB-polling synchronizer -/

lemma getAggregatorSetting_set_same (st : Settings) (k v : String) :
    getAggregatorSetting (setAggregatorSetting st k v) k = some v := by
  simp [getAggregatorSetting, setAggregatorSetting, List.lookup]

lemma getAggregatorSetting_set_ne (st : Settings) (k k2 v : String) (h : k2 ≠ k) :
    getAggregatorSetting (setAggregatorSetting st k v) k2 = getAggregatorSetting st k2 := by
  have hb : (k2 == k) = false := by simp [h]
  simp [getAggregatorSetting, setAggregatorSetting, List.lookup, hb]

/-- C7: a poll that does not read settings_changed = "true" applies nothing
and returns without error; a poll that does resets the flag to "false" FIRST
(visible in the returned settings, whose other keys are untouched) and only
then reads interval and workers — values that parse positively are applied to
the running aggregator: the interval replaces the ticker period, the worker
count replaces the configured count (stated here for a shrink, where no worker
is spawned). -/
theorem checkAndApplyChanges_behavior
    (pd : String → Option Time) (atoi : String → Option Int)
    (st : Settings) (a : AggState) (s ws : String) (d : Time) (w : Int) :
    (getAggregatorSetting st "settings_changed" ≠ some "true" →
      Manager.checkAndApplyChanges pd atoi st a = some (st, a)) ∧
    (getAggregatorSetting st "settings_changed" = some "true" →
      getAggregatorSetting (setAggregatorSetting st "settings_changed" "false")
        "settings_changed" = some "false" ∧
      getAggregatorSetting (setAggregatorSetting st "settings_changed" "false")
        "interval" = getAggregatorSetting st "interval" ∧
      getAggregatorSetting (setAggregatorSetting st "settings_changed" "false")
        "workers" = getAggregatorSetting st "workers" ∧
      (getAggregatorSetting st "interval" = none →
        getAggregatorSetting st "workers" = none →
        Manager.checkAndApplyChanges pd atoi st a =
          some (setAggregatorSetting st "settings_changed" "false", a)) ∧
      (getAggregatorSetting st "interval" = some s → pd s = some d → 0 < d →
        a.interval ≠ d → a.isRunning = true → a.ticker.isSome = true →
        getAggregatorSetting st "workers" = some ws → atoi ws = some w → 0 < w →
        w.toNat ≠ a.workersCount → w.toNat ≤ a.workersCount →
        Manager.checkAndApplyChanges pd atoi st a =
          some (setAggregatorSetting st "settings_changed" "false",
            { a with interval := d, ticker := some d, tickerActive := true,
                     workersCount := w.toNat }))) := by
  constructor
  · intro hflag
    unfold Manager.checkAndApplyChanges
    cases hv : getAggregatorSetting st "settings_changed" with
    | none => rfl
    | some v =>
      rw [hv] at hflag
      have hne : v ≠ "true" := fun he => hflag (by rw [he])
      simp [hne]
  · intro hflag
    refine ⟨getAggregatorSetting_set_same st "settings_changed" "false",
      getAggregatorSetting_set_ne st "settings_changed" "interval" "false" (by decide),
      getAggregatorSetting_set_ne st "settings_changed" "workers" "false" (by decide),
      ?_, ?_⟩
    · intro hi hw
      unfold Manager.checkAndApplyChanges
      rw [hflag]
      simp only [ne_eq, not_true_eq_false, if_false,
        getAggregatorSetting_set_ne st "settings_changed" "interval" "false" (by decide),
        getAggregatorSetting_set_ne st "settings_changed" "workers" "false" (by decide),
        hi, hw]
      rfl
    · intro hi hpd hdpos hdne hrun hticker hw hatoi hwpos hwne hwle
      unfold Manager.checkAndApplyChanges
      rw [hflag]
      simp only [ne_eq, not_true_eq_false, if_false,
        getAggregatorSetting_set_ne st "settings_changed" "interval" "false" (by decide),
        getAggregatorSetting_set_ne st "settings_changed" "workers" "false" (by decide),
        hi, hw, hpd, hatoi]
      have hwpos2 : (0 : Int) < w := hwpos
      rw [if_pos hwpos2, if_pos hdpos]
      have hset : AggDB.setInterval a d = some (.ok
          { a with interval := d, ticker := some d, tickerActive := true }) := by
        obtain ⟨t, ht⟩ := Option.isSome_iff_exists.mp hticker
        have hne2 : (a.interval == d) = false := by simp [hdne]
        have hc : ¬ (d ≤ 0) := not_le.mpr hdpos
        have hnt : newTicker d = some d := by
          unfold newTicker
          rw [if_neg hc]
        simp [AggDB.setInterval, hrun, hne2, ht, hnt]
      have hres : AggDB.resize { a with interval := d, ticker := some d, tickerActive := true } w =
          .ok { a with
            interval := d,
            ticker := some d,
            tickerActive := true,
            workersCount := w.toNat } := by
        have hn : ¬ (w ≤ 0) := not_le.mpr hwpos
        have hcnt :
            (({ a with interval := d, ticker := some d, tickerActive := true } : AggState).workersCount
              == w.toNat) = false := by
          simp [Ne.symm hwne]
        have hgrow :
            ¬ (({ a with interval := d, ticker := some d, tickerActive := true } : AggState).workersCount
              < w.toNat) := not_lt.mpr hwle
        simp [AggDB.resize, hn, hcnt, hrun, hgrow]
      simp [hset, hres, hwpos2]

/-- Concrete parser stub for the C7 witness: recognises exactly "2s". -/
def pdW (x : String) : Option Time := if x = "2s" then some (2 * second) else none

/-- Concrete Atoi stub for the C7 witness: recognises exactly "2". -/
def atoiW (x : String) : Option Int := if x = "2" then some 2 else none

/-- Settings table for the C7 witness. -/
def stW : Settings :=
  [("interval", "2s"), ("workers", "2"), ("settings_changed", "true")]

/-- C7 witness: a poll of a concrete settings table with the flag set applies
the 2s interval and the shrink to 2 workers to the running three-worker
aggregator, returning the settings with the flag reset. -/
theorem checkAndApplyChanges_behavior_witness :
    Manager.checkAndApplyChanges pdW atoiW stW agg3run =
      some (setAggregatorSetting stW "settings_changed" "false",
        { agg3run with
            interval := 2 * second,
            ticker := some (2 * second),
            tickerActive := true,
            workersCount := 2 }) ∧
    Manager.checkAndApplyChanges pdW atoiW [] agg3run = some ([], agg3run) := by
  have h := checkAndApplyChanges_behavior pdW atoiW stW agg3run "2s" "2" (2 * second) 2
  have h2 := checkAndApplyChanges_behavior pdW atoiW [] agg3run "2s" "2" (2 * second) 2
  constructor
  · exact (h.2 rfl).2.2.2.2 rfl rfl (by decide) (by decide) rfl rfl rfl rfl
      (by decide) (by decide) (by decide)
  · exact h2.1 (by decide)

/-! ## C8: the CLI rejects sub-second intervals -/

/-- C8: a set-interval request whose duration parses below one second is
rejected with the InvalidConfig error. The rejection happens before the
running-state check and before any call into the aggregator, so no state is
mutated (the result carries only the error) and the previously configured
interval remains in effect. -/
theorem handleSetInterval_rejects_subsecond (pd : String → Option Time)
    (a : AggState) (args : List String) (d : Time)
    (hlen : 3 ≤ args.length) (hparse : pd (args.getD 2 "") = some d)
    (hsub : d < second) :
    CLI.handleSetInterval pd a args = some (.error "interval must be at least 1 second") := by
  have hl : ¬ (args.length < 3) := not_lt.mpr hlen
  simp only [CLI.handleSetInterval, if_neg hl, hparse, if_pos hsub]

/-- C8 witness: `set-interval 500ms` (parsing to 500 000 000 ns) is rejected
regardless of the aggregator's state. -/
theorem handleSetInterval_rejects_subsecond_witness :
    CLI.handleSetInterval (fun x => if x = "500ms" then some 500000000 else none)
      agg3run ["rsshub", "set-interval", "500ms"] =
    some (.error "interval must be at least 1 second") := by
  exact handleSetInterval_rejects_subsecond
    (fun x => if x = "500ms" then some 500000000 else none)
    agg3run ["rsshub", "set-interval", "500ms"] 500000000
    (by decide) (by decide) (by decide)

end RSSHub
